import Mathlib

/- Verification development for a small MCP demo client (mcp/mcp_client.py).

   The client is embedded shallowly. Each remote session operation performed
   through the MCP library (initialize, list prompts, list resources, list
   tools, call tool) is modelled as an input recorded in an environment
   structure, given as an Except value: ok carries the value the operation
   returned, error stands for the exception it raised. Each demo flow is then
   a pure function from that environment (plus its command line inputs) to
   the list of observable events it performs, where a try/except block in the
   source becomes a match on the corresponding Except value that continues
   the flow on both branches, and an exception that no inner handler catches
   ends the trace at the outermost handler. Python truthiness of optional
   strings (None and the empty string are both falsy) is modelled explicitly,
   since the source branches on it. -/

/-- JSON-like values passed as tool call arguments; the number case carries a
    rational standing for the numeric literal in the source. -/
inductive Value where
  | vStr (s : String)
  | vInt (n : Int)
  | vNum (q : Rat)
  deriving DecidableEq

/-- One named argument of a tool call. -/
abbrev ArgPair := String × Value

/-- A tool input schema as the stdio flow reads it: the optional
    properties object, a mapping from property name to the optional value of
    the type key of that property (prop def get of type in the source). -/
structure Schema where
  properties : Option (List (String × Option String))
  deriving DecidableEq

/-- A tool descriptor as listed by the server; the source reads name,
    description and inputSchema. -/
structure Tool where
  name : String
  description : String
  inputSchema : Option Schema
  deriving DecidableEq

/-- Content part of the canned sampling reply (source lines 24 to 27). -/
structure TextContent where
  type : String
  text : String
  deriving DecidableEq

/-- A model sampling request issued by the server. The source never inspects
    it; concrete fields stand for its content so that distinct requests
    exist. -/
structure CreateMessageRequestParams where
  messages : List String
  maxTokens : Nat
  deriving DecidableEq

/-- Reply to a model sampling request (source lines 22 to 30). -/
structure CreateMessageResult where
  role : String
  content : TextContent
  model : String
  stopReason : String
  deriving DecidableEq

/-- Sampling callback registered by the stdio flow (source lines 18 to 30):
    replies with a fixed canned message, ignoring the request. -/
def handle_sampling_message (message : CreateMessageRequestParams) :
    CreateMessageResult :=
  { role := "assistant"
    content := { type := "text", text := "Hello from MCP client!" }
    model := "gpt-3.5-turbo"
    stopReason := "endTurn" }

/-- Python truthiness of an optional string: None and the empty string are
    falsy, every other string is truthy. -/
def pytruthy : Option String → Bool
  | none => false
  | some s => !(s == "")

/-- Whether an operation result is a success. -/
def isOk {α : Type} (r : Except String α) : Bool :=
  match r with
  | Except.ok _ => true
  | Except.error _ => false

/-- The local variable tools of the stdio flow after the listing try block
    (source lines 96 to 105): none when the listing raised, otherwise the
    listed tools. -/
def toolsOf (r : Except String (List Tool)) : Option (List Tool) :=
  match r with
  | Except.ok ts => some ts
  | Except.error _ => none

/-- The if/elif chain of source lines 126 to 131 applied to one property
    type tag: string, integer and number tags get fixed example values, any
    other tag (or an absent type key) contributes nothing. -/
def exampleArg (tag : Option String) : Option Value :=
  if tag = some "string" then some (Value.vStr "example")
  else if tag = some "integer" then some (Value.vInt 42)
  else if tag = some "number" then some (Value.vNum 3.14)
  else none

/-- The argument synthesis loop of source lines 125 to 131: one example
    value per property with a recognized type tag, in property order. The
    properties come from a dict, so the keys of the input list are distinct
    in every run of the source. -/
def synthesizeArgs (props : List (String × Option String)) : List ArgPair :=
  props.filterMap (fun p => (exampleArg p.2).map (fun v => (p.1, v)))

/-- Tool selection of source lines 111 to 113: the explicit name when it is
    truthy, otherwise the first listed tool when the listing succeeded with a
    non-empty list, otherwise the explicit name unchanged. -/
def selectedToolName (toolName : Option String) (tools : Option (List Tool)) :
    Option String :=
  if pytruthy toolName then toolName
  else
    match tools with
    | some (t :: _) => some t.name
    | _ => toolName

/-- Lookup of the selected tool among the listed tools (source line 121). -/
def findTool (n : String) (tools : Option (List Tool)) : Option Tool :=
  match tools with
  | some ts => ts.find? (fun t => t.name == n)
  | none => none

/-- Argument construction of source lines 119 to 131: starts from the empty
    dict, and fills it only when the listing succeeded with a non-empty
    list, the selected name is found there, the found tool has a truthy
    input schema and that schema has a properties key. -/
def toolArgsFor (n : String) (tools : Option (List Tool)) : List ArgPair :=
  match tools with
  | some (t :: ts) =>
    match (t :: ts).find? (fun u => u.name == n) with
    | some sel =>
      match sel.inputSchema with
      | some schema =>
        match schema.properties with
        | some props => synthesizeArgs props
        | none => []
      | none => []
    | none => []
  | _ => []

/-- Observable events of the stdio flow. -/
inductive Ev where
  | listPrompts (ok : Bool)
  | listResources (ok : Bool)
  | listTools (ok : Bool)
  | callTool (name : String) (args : List ArgPair) (ok : Bool)
  | fatal
  deriving DecidableEq

/-- Environment of the stdio flow: the outcome of every session operation it
    may perform. initRes covers the subprocess launch, stream setup and the
    session initialize call, none of which is guarded by an inner handler. -/
structure StdioEnv where
  initRes : Except String Unit
  promptsRes : Except String (List String)
  resourcesRes : Except String (List String)
  toolsRes : Except String (List Tool)
  callOk : String → List ArgPair → Bool

/-- The tool call part of the stdio flow (source lines 110 to 137): call the
    selected tool when its name is truthy; the call has its own handler, so
    both outcomes continue. -/
def stdioCallPhase (tools : Option (List Tool)) (toolName : Option String)
    (callOk : String → List ArgPair → Bool) : List Ev :=
  match selectedToolName toolName tools with
  | some n =>
    if n == "" then []
    else [Ev.callTool n (toolArgsFor n tools) (callOk n (toolArgsFor n tools))]
  | none => []

/-- The stdio demo flow (source lines 33 to 140) as a trace of events: on a
    setup or initialize failure the outer handler ends the flow; otherwise
    the three listings run in order, each with its own handler, and unless
    the list only flag is set the tool call part follows. -/
def demoStdioClient (env : StdioEnv) (toolName : Option String)
    (listOnly : Bool) : List Ev :=
  match env.initRes with
  | Except.error _ => [Ev.fatal]
  | Except.ok _ =>
    Ev.listPrompts (isOk env.promptsRes) ::
    Ev.listResources (isOk env.resourcesRes) ::
    Ev.listTools (isOk env.toolsRes) ::
    (if listOnly then []
     else stdioCallPhase (toolsOf env.toolsRes) toolName env.callOk)

/-- Names of the tools called in a stdio trace. -/
def callNames (tr : List Ev) : List String :=
  tr.filterMap (fun ev =>
    match ev with
    | Ev.callTool n _ _ => some n
    | _ => none)

/-- Calls (name and arguments) in a stdio trace. -/
def callEvents (tr : List Ev) : List (String × List ArgPair) :=
  tr.filterMap (fun ev =>
    match ev with
    | Ev.callTool n a _ => some (n, a)
    | _ => none)

/-- Whether a stdio event is a tool call. -/
def isCallEv : Ev → Bool
  | Ev.callTool _ _ _ => true
  | _ => false

/-- Whether the character list starts with the pattern. -/
def listStartsWith : List Char → List Char → Bool
  | [], _ => true
  | _ :: _, [] => false
  | p :: ps, c :: cs => (p == c) && listStartsWith ps cs

/-- Whether the pattern occurs contiguously in the character list. -/
def listContainsSeq (pat : List Char) : List Char → Bool
  | [] => listStartsWith pat []
  | c :: cs => listStartsWith pat (c :: cs) || listContainsSeq pat cs

/-- Python substring test: pat in s. -/
def strContainsSub (s pat : String) : Bool :=
  listContainsSeq pat.data s.data

/-- ASCII fragment of the Python lower method on one character, enough for
    the tool names this client meets. -/
def lowerChar (c : Char) : Char :=
  if 'A' ≤ c && c ≤ 'Z' then Char.ofNat (c.toNat + 32) else c

/-- ASCII fragment of the Python lower method on a string. -/
def strToLower (s : String) : String :=
  ⟨s.data.map lowerChar⟩

/-- HTTP flow argument choice (source lines 176 to 181): a message greeting
    when the lowercased tool name contains echo, otherwise no arguments. -/
def httpArgsFor (toolName : String) : List ArgPair :=
  if strContainsSub (strToLower toolName) "echo" then
    [("message", Value.vStr "Hello via HTTP!")]
  else []

/-- An error escaping the HTTP session body, split the way the two outer
    except branches of source lines 200 to 209 distinguish exceptions: a
    ConnectionError against any other exception. -/
inductive HErrKind where
  | connection (msg : String)
  | other (msg : String)
  deriving DecidableEq

/-- Environment of the HTTP flow. initRes covers the stream setup and the
    session initialize call, which no inner handler guards. -/
structure HttpEnv where
  initRes : Except HErrKind Unit
  toolsRes : Except String (List Tool)
  resourcesRes : Except String (List String)
  callOk : String → List ArgPair → Bool

/-- Observable events of the HTTP flow. -/
inductive HEv where
  | initDone
  | listTools (ok : Bool)
  | callTool (name : String) (args : List ArgPair) (ok : Bool)
  | listResources (ok : Bool)
  | connectionFailureHint (url : String)
  | genericFailureHint (url : String)
  deriving DecidableEq

/-- Tool listing and first tool call of the HTTP flow (source lines 163 to
    186): one shared handler wraps the listing and the call, and the first
    listed tool, if any, is called with httpArgsFor of its name. -/
def httpToolPhase (toolsRes : Except String (List Tool))
    (callOk : String → List ArgPair → Bool) : List HEv :=
  match toolsRes with
  | Except.error _ => [HEv.listTools false]
  | Except.ok [] => [HEv.listTools true]
  | Except.ok (t :: _) =>
    [HEv.listTools true,
     HEv.callTool t.name (httpArgsFor t.name) (callOk t.name (httpArgsFor t.name))]

/-- The HTTP demo flow (source lines 143 to 209) as a trace of events: an
    error escaping the session body lands in exactly one of the two outer
    branches, each of which emits one remediation hint naming the url and
    ends the flow; otherwise the tool phase runs, then the resources listing
    with its own handler. -/
def demoHttpClient (url : String) (env : HttpEnv) : List HEv :=
  match env.initRes with
  | Except.error (HErrKind.connection _) => [HEv.connectionFailureHint url]
  | Except.error (HErrKind.other _) => [HEv.genericFailureHint url]
  | Except.ok _ =>
    HEv.initDone ::
    (httpToolPhase env.toolsRes env.callOk ++
     [HEv.listResources (isOk env.resourcesRes)])

/-- Calls (name and arguments) in an HTTP trace. -/
def httpCallEvents (tr : List HEv) : List (String × List ArgPair) :=
  tr.filterMap (fun ev =>
    match ev with
    | HEv.callTool n a _ => some (n, a)
    | _ => none)

/-- The parsed command line options of the entry point (source lines 214 to
    222). -/
structure ParsedArgs where
  host : String
  port : Int
  docker_image : String
  list_tools : Bool
  tool : Option String
  http_url : Option String
  deriving DecidableEq

/-- Which demo flow the entry point runs, with the inputs passed to it. -/
inductive FlowRun where
  | httpRun (url : String)
  | stdioRun (host : String) (port : Int) (image : String)
      (tool : Option String) (listOnly : Bool)
  deriving DecidableEq

/-- The docker argument list the stdio flow builds for the socat bridge
    subprocess (source lines 44 to 51). -/
def stdioDockerArgs (image host : String) (port : Int) : List String :=
  ["run", "-i", "--rm", image, "STDIO", "TCP:" ++ host ++ ":" ++ toString port]

/-- The entry point dispatch (source lines 224 to 234): the HTTP flow runs
    exactly when the http url option is truthy, and then the function
    returns; otherwise the stdio flow runs with the remaining options. -/
def mainFlow (args : ParsedArgs) : FlowRun :=
  if pytruthy args.http_url then FlowRun.httpRun (args.http_url.getD "")
  else
    FlowRun.stdioRun args.host args.port args.docker_image args.tool
      args.list_tools

/- Concrete fixtures used by witnesses and counterexamples. -/

/-- A schemaless tool named a. -/
def toolA : Tool := { name := "a", description := "first", inputSchema := none }

/-- A schemaless tool named b. -/
def toolB : Tool := { name := "b", description := "second", inputSchema := none }

/-- A tool named x with no input schema. -/
def toolX : Tool :=
  { name := "x", description := "schemaless", inputSchema := none }

/-- A tool whose name contains echo after lowercasing. -/
def echoTool : Tool :=
  { name := "EchoTool", description := "echoes", inputSchema := none }

/-- Stdio environment where every operation succeeds and tools a and b are
    listed. -/
def envAB : StdioEnv :=
  { initRes := Except.ok ()
    promptsRes := Except.ok []
    resourcesRes := Except.ok []
    toolsRes := Except.ok [toolA, toolB]
    callOk := fun _ _ => true }

/-- Stdio environment where the tool listing raises. -/
def envNoTools : StdioEnv :=
  { initRes := Except.ok ()
    promptsRes := Except.ok []
    resourcesRes := Except.ok []
    toolsRes := Except.error "listing failed"
    callOk := fun _ _ => true }

/-- Stdio environment listing only the schemaless tool x. -/
def envX : StdioEnv :=
  { initRes := Except.ok ()
    promptsRes := Except.ok []
    resourcesRes := Except.ok []
    toolsRes := Except.ok [toolX]
    callOk := fun _ _ => true }

/-- HTTP environment listing only the echo tool. -/
def envEcho : HttpEnv :=
  { initRes := Except.ok ()
    toolsRes := Except.ok [echoTool]
    resourcesRes := Except.ok []
    callOk := fun _ _ => true }

/-- A tool whose name does not contain echo. -/
def upperTool : Tool :=
  { name := "uppercase", description := "upcases", inputSchema := none }

/-- HTTP environment listing only the uppercase tool. -/
def envUpper : HttpEnv :=
  { initRes := Except.ok ()
    toolsRes := Except.ok [upperTool]
    resourcesRes := Except.ok []
    callOk := fun _ _ => true }

/-- HTTP environment whose connection attempt raises a ConnectionError. -/
def envConnFail : HttpEnv :=
  { initRes := Except.error (HErrKind.connection "refused")
    toolsRes := Except.ok []
    resourcesRes := Except.ok []
    callOk := fun _ _ => true }

/- Helper lemmas. -/

/-- Unfolding of the synthesis loop on one property. -/
theorem synthesizeArgs_cons (p : String × Option String)
    (rest : List (String × Option String)) :
    synthesizeArgs (p :: rest) =
      match exampleArg p.2 with
      | some v => (p.1, v) :: synthesizeArgs rest
      | none => synthesizeArgs rest := by
  cases hx : exampleArg p.2 <;>
    simp [synthesizeArgs, List.filterMap_cons, hx]

/-- A name absent from the schema keys contributes no synthesized argument. -/
theorem synthesizeArgs_filter_not_mem (props : List (String × Option String))
    (name : String) (h : name ∉ props.map Prod.fst) :
    (synthesizeArgs props).filter (fun q => q.1 == name) = [] := by
  induction props with
  | nil => rfl
  | cons p rest ih =>
    simp only [List.map_cons, List.mem_cons, not_or] at h
    rw [synthesizeArgs_cons]
    cases hx : exampleArg p.2 with
    | none => exact ih h.2
    | some v =>
      have hne : (p.1 == name) = false :=
        beq_eq_false_iff_ne.mpr (fun hh => h.1 hh.symm)
      simp [List.filter_cons, hne, ih h.2]

/-- Claim C1: for a schema with distinct property names, the synthesizer
    emits exactly one entry for each property tagged string, integer or
    number, carrying the fixed example value of that tag, and emits no entry
    for a property whose type tag is absent or anything else. -/
theorem synthesizeArgs_spec (props : List (String × Option String))
    (hnd : (props.map Prod.fst).Nodup) (name : String) (tag : Option String)
    (hmem : (name, tag) ∈ props) :
    (synthesizeArgs props).filter (fun q => q.1 == name) =
      (if tag = some "string" then [(name, Value.vStr "example")]
       else if tag = some "integer" then [(name, Value.vInt 42)]
       else if tag = some "number" then [(name, Value.vNum 3.14)]
       else []) := by
  induction props with
  | nil => cases hmem
  | cons p rest ih =>
    rw [List.map_cons, List.nodup_cons] at hnd
    rcases List.mem_cons.mp hmem with heq | htail
    · subst heq
      have hnot : name ∉ rest.map Prod.fst := hnd.1
      rw [synthesizeArgs_cons]
      by_cases h1 : tag = some "string"
      · subst h1
        simp [exampleArg, List.filter_cons,
          synthesizeArgs_filter_not_mem rest name hnot]
      · by_cases h2 : tag = some "integer"
        · subst h2
          simp [exampleArg, List.filter_cons,
            synthesizeArgs_filter_not_mem rest name hnot]
        · by_cases h3 : tag = some "number"
          · subst h3
            simp [exampleArg, List.filter_cons,
              synthesizeArgs_filter_not_mem rest name hnot]
          · simp [exampleArg, h1, h2, h3,
              synthesizeArgs_filter_not_mem rest name hnot]
    · have hname : name ∈ rest.map Prod.fst :=
        List.mem_map_of_mem Prod.fst htail
      have hne : (p.1 == name) = false :=
        beq_eq_false_iff_ne.mpr (fun hh => hnd.1 (by rw [hh]; exact hname))
      rw [synthesizeArgs_cons]
      cases hx : exampleArg p.2 with
      | none => exact ih hnd.2 htail
      | some v => simp [List.filter_cons, hne, ih hnd.2 htail]

/-- Witness for C1 at a concrete schema holding all tag kinds. -/
theorem synthesizeArgs_spec_witness :
    (synthesizeArgs
        [("a", some "string"), ("b", some "integer"),
         ("c", some "number"), ("d", none), ("e", some "boolean")]).filter
      (fun q => q.1 == "b") = [("b", Value.vInt 42)] := by
  have h := synthesizeArgs_spec
    [("a", some "string"), ("b", some "integer"),
     ("c", some "number"), ("d", none), ("e", some "boolean")]
    (by decide) "b" (some "integer") (by decide)
  simpa using h

/-- Claim C2 counterexample: with listed tools a and b and the explicit name
    c, which is not in the listed set, the stdio flow calls c, not the first
    listed tool a as the claimed fallback requires. -/
theorem stdio_selection_cex :
    demoStdioClient envAB (some "c") false =
      [Ev.listPrompts true, Ev.listResources true, Ev.listTools true,
       Ev.callTool "c" [] true] ∧
    Ev.callTool "a" [] true ∉ demoStdioClient envAB (some "c") false := by
  constructor
  · rfl
  · decide

/-- Claim C2 amended: the stdio flow calls the explicitly named tool whenever
    a non-empty name is given, whether or not the name is in the listed set;
    with no explicit name it calls the first listed tool when the listing
    returned a non-empty list (and the name of that tool is non-empty); with
    no explicit name and no listed tools, no call is made. -/
theorem stdio_tool_selection_amended (env : StdioEnv)
    (h0 : env.initRes = Except.ok ()) (name : String) (hname : name ≠ "")
    (t : Tool) (ht : t.name ≠ "") (ts : List Tool) (msg : String) :
    callNames (demoStdioClient env (some name) false) = [name] ∧
    callNames (demoStdioClient { env with toolsRes := Except.ok (t :: ts) }
      none false) = [t.name] ∧
    callNames (demoStdioClient { env with toolsRes := Except.ok [] }
      none false) = [] ∧
    callNames (demoStdioClient { env with toolsRes := Except.error msg }
      none false) = [] := by
  have hb : (name == "") = false := beq_eq_false_iff_ne.mpr hname
  have htb : (t.name == "") = false := beq_eq_false_iff_ne.mpr ht
  refine ⟨?_, ?_, ?_, ?_⟩
  · simp [demoStdioClient, h0, callNames, stdioCallPhase, selectedToolName,
      pytruthy, hb]
  · simp [demoStdioClient, h0, callNames, stdioCallPhase, selectedToolName,
      pytruthy, htb, toolsOf]
  · simp [demoStdioClient, h0, callNames, stdioCallPhase, selectedToolName,
      pytruthy, toolsOf]
  · simp [demoStdioClient, h0, callNames, stdioCallPhase, selectedToolName,
      pytruthy, toolsOf]

/-- Witness for the amended C2 at concrete environments. -/
theorem stdio_tool_selection_amended_witness :
    callNames (demoStdioClient envAB (some "c") false) = ["c"] ∧
    callNames (demoStdioClient { envAB with toolsRes := Except.ok [toolA, toolB] }
      none false) = ["a"] ∧
    callNames (demoStdioClient { envAB with toolsRes := Except.ok [] }
      none false) = [] ∧
    callNames (demoStdioClient { envAB with toolsRes := Except.error "m" }
      none false) = [] :=
  stdio_tool_selection_amended envAB rfl "c" (by decide) toolA (by decide)
    [toolB] "m"

/-- Claim C3 counterexample: with the http url option present but holding the
    empty string, the entry point runs the stdio flow, not the HTTP flow. -/
theorem main_http_url_cex :
    mainFlow
        { host := "host.docker.internal", port := 8811,
          docker_image := "alpine/socat", list_tools := false,
          tool := none, http_url := some "" } =
      FlowRun.stdioRun "host.docker.internal" 8811 "alpine/socat" none
        false := by
  rfl

/-- Claim C3 amended: when the http url option is present with a non-empty
    value, the entry point runs only the HTTP flow on that url and never the
    stdio flow, regardless of every other option. -/
theorem main_transport_selection (args : ParsedArgs) (url : String)
    (h : args.http_url = some url) (hu : url ≠ "") :
    mainFlow args = FlowRun.httpRun url ∧
    ∀ a b c d e, mainFlow args ≠ FlowRun.stdioRun a b c d e := by
  have hb : (url == "") = false := beq_eq_false_iff_ne.mpr hu
  constructor
  · simp [mainFlow, pytruthy, h, hb]
  · intro a b c d e
    simp [mainFlow, pytruthy, h, hb]

/-- Witness for the amended C3 with the http url set beside stdio options. -/
theorem main_transport_selection_witness :
    mainFlow
        { host := "host.docker.internal", port := 8811,
          docker_image := "alpine/socat", list_tools := true,
          tool := some "b", http_url := some "http://localhost:8000/mcp" } =
      FlowRun.httpRun "http://localhost:8000/mcp" ∧
    ∀ a b c d e,
      mainFlow
          { host := "host.docker.internal", port := 8811,
            docker_image := "alpine/socat", list_tools := true,
            tool := some "b", http_url := some "http://localhost:8000/mcp" } ≠
        FlowRun.stdioRun a b c d e :=
  main_transport_selection _ "http://localhost:8000/mcp" rfl (by decide)

/-- Claim C4: with the list only flag set, an initialized stdio flow stops
    right after the three listings and never emits a tool call, whatever the
    tool listing returned and whatever the explicit tool name option holds. -/
theorem stdio_list_only_no_call (env : StdioEnv) (tn : Option String)
    (h0 : env.initRes = Except.ok ()) :
    demoStdioClient env tn true =
      [Ev.listPrompts (isOk env.promptsRes),
       Ev.listResources (isOk env.resourcesRes),
       Ev.listTools (isOk env.toolsRes)] ∧
    (demoStdioClient env tn true).all (fun ev => !(isCallEv ev)) = true := by
  constructor
  · simp [demoStdioClient, h0]
  · simp [demoStdioClient, h0, isCallEv]

/-- Witness for C4 at a concrete environment with listed tools and an
    explicit tool name. -/
theorem stdio_list_only_no_call_witness :
    demoStdioClient envAB (some "b") true =
      [Ev.listPrompts true, Ev.listResources true, Ev.listTools true] ∧
    (demoStdioClient envAB (some "b") true).all
      (fun ev => !(isCallEv ev)) = true :=
  stdio_list_only_no_call envAB (some "b") rfl

/-- Claim C5: in an initialized HTTP flow whose tool listing returned a
    non-empty list, exactly one call is made, on the first listed tool; it
    gets the single fixed message greeting when the lowercased tool name
    contains echo, and the empty argument mapping otherwise. -/
theorem http_first_tool_called (url : String) (env : HttpEnv)
    (h0 : env.initRes = Except.ok ()) (t : Tool) (ts : List Tool)
    (ht : env.toolsRes = Except.ok (t :: ts)) :
    httpCallEvents (demoHttpClient url env) =
      [(t.name,
        if strContainsSub (strToLower t.name) "echo" then
          [("message", Value.vStr "Hello via HTTP!")]
        else [])] := by
  simp [demoHttpClient, h0, ht, httpToolPhase, httpCallEvents, httpArgsFor]

/-- Witness for C5 on a tool named EchoTool and a tool named uppercase. -/
theorem http_first_tool_called_witness :
    httpCallEvents (demoHttpClient "http://localhost:8000/mcp" envEcho) =
      [("EchoTool", [("message", Value.vStr "Hello via HTTP!")])] ∧
    httpCallEvents (demoHttpClient "http://localhost:8000/mcp" envUpper) =
      [("uppercase", [])] := by
  constructor
  · have h := http_first_tool_called "http://localhost:8000/mcp" envEcho rfl
      echoTool [] rfl
    rw [h]
    rfl
  · have h := http_first_tool_called "http://localhost:8000/mcp" envUpper rfl
      upperTool [] rfl
    rw [h]
    rfl

/-- Claim C6: a failure in any of the three stdio listings is absorbed at its
    own call site: with all three listings failing, an initialized flow still
    performs the three listings in order and proceeds to the tool phase, and
    the events following the resources listing do not depend on the outcome
    of the resources listing. -/
theorem stdio_listing_failure_isolated (env : StdioEnv) (tn : Option String)
    (lo : Bool) (e1 e2 e3 : String) (rs : List String)
    (h0 : env.initRes = Except.ok ()) :
    demoStdioClient
        { env with
          promptsRes := Except.error e1
          resourcesRes := Except.error e2
          toolsRes := Except.error e3 } tn lo =
      Ev.listPrompts false :: Ev.listResources false :: Ev.listTools false ::
        (if lo then [] else stdioCallPhase none tn env.callOk) ∧
    (demoStdioClient { env with resourcesRes := Except.error e2 } tn lo).drop
        2 =
      (demoStdioClient { env with resourcesRes := Except.ok rs } tn lo).drop
        2 := by
  constructor
  · simp [demoStdioClient, h0, isOk, toolsOf]
  · simp only [demoStdioClient, h0]
    rfl

/-- Witness for C6 on a concrete environment with an explicit tool name. -/
theorem stdio_listing_failure_isolated_witness :
    demoStdioClient
        { envAB with
          promptsRes := Except.error "p"
          resourcesRes := Except.error "r"
          toolsRes := Except.error "t" } (some "b") false =
      Ev.listPrompts false :: Ev.listResources false :: Ev.listTools false ::
        (if false then []
         else stdioCallPhase none (some "b") envAB.callOk) ∧
    (demoStdioClient { envAB with resourcesRes := Except.error "r" }
        (some "b") false).drop 2 =
      (demoStdioClient { envAB with resourcesRes := Except.ok ["res"] }
        (some "b") false).drop 2 :=
  stdio_listing_failure_isolated envAB (some "b") false "p" "r" "t" ["res"]
    rfl

/-- Claim C7: an error escaping the HTTP session body lands in exactly one of
    the two outer branches, chosen by whether it is a connection error; the
    flow then emits exactly one remediation hint naming the given url and
    ends, with no retry and no propagation of the error. -/
theorem http_error_branches (url : String) (env : HttpEnv) (e : HErrKind)
    (h : env.initRes = Except.error e) :
    demoHttpClient url env =
      [match e with
       | HErrKind.connection _ => HEv.connectionFailureHint url
       | HErrKind.other _ => HEv.genericFailureHint url] := by
  cases e <;> simp [demoHttpClient, h]

/-- Witness for C7 on a connection failure. -/
theorem http_error_branches_witness :
    demoHttpClient "http://localhost:8000/mcp" envConnFail =
      [HEv.connectionFailureHint "http://localhost:8000/mcp"] := by
  have h := http_error_branches "http://localhost:8000/mcp" envConnFail
    (HErrKind.connection "refused") rfl
  rw [h]

/-- Claim C8: the sampling callback registered by the stdio flow is a
    constant function: any two requests get identical replies, and the reply
    has assistant role, the fixed greeting text, and the end of turn stop
    reason. -/
theorem sampling_callback_constant (m1 m2 : CreateMessageRequestParams) :
    handle_sampling_message m1 = handle_sampling_message m2 ∧
    (handle_sampling_message m1).role = "assistant" ∧
    (handle_sampling_message m1).content.text = "Hello from MCP client!" ∧
    (handle_sampling_message m1).stopReason = "endTurn" :=
  ⟨rfl, rfl, rfl, rfl⟩

/-- Claim C9 counterexample: the explicit tool name option can hold the empty
    string; then, with a failed tool listing and the list only flag unset,
    the stdio flow makes no call at all instead of calling that name. -/
theorem stdio_explicit_name_cex :
    demoStdioClient envNoTools (some "") false =
      [Ev.listPrompts true, Ev.listResources true, Ev.listTools false] ∧
    callNames (demoStdioClient envNoTools (some "") false) = [] :=
  ⟨rfl, rfl⟩

/-- Claim C9 amended: whenever a non-empty explicit tool name is supplied and
    the list only flag is unset, an initialized stdio flow attempts exactly
    one call carrying that exact name, even when the tool listing failed or
    returned a list without that name, and in those cases the argument
    mapping of the call is empty. -/
theorem stdio_explicit_name_called (env : StdioEnv)
    (h0 : env.initRes = Except.ok ()) (name : String) (hname : name ≠ "")
    (msg : String) (ts : List Tool) (hts : ∀ t ∈ ts, t.name ≠ name) :
    callEvents (demoStdioClient { env with toolsRes := Except.error msg }
      (some name) false) = [(name, [])] ∧
    callEvents (demoStdioClient { env with toolsRes := Except.ok ts }
      (some name) false) = [(name, [])] := by
  have hb : (name == "") = false := beq_eq_false_iff_ne.mpr hname
  constructor
  · simp [demoStdioClient, h0, callEvents, stdioCallPhase, selectedToolName,
      pytruthy, hb, toolsOf, toolArgsFor]
  · cases ts with
    | nil =>
      simp [demoStdioClient, h0, callEvents, stdioCallPhase,
        selectedToolName, pytruthy, hb, toolsOf, toolArgsFor]
    | cons t rest =>
      have hfind : (t :: rest).find? (fun u => u.name == name) = none := by
        rw [List.find?_eq_none]
        intro x hx
        simpa using hts x hx
      simp [demoStdioClient, h0, callEvents, stdioCallPhase,
        selectedToolName, pytruthy, hb, toolsOf, toolArgsFor, hfind]

/-- Witness for the amended C9 at concrete environments. -/
theorem stdio_explicit_name_called_witness :
    callEvents (demoStdioClient { envAB with toolsRes := Except.error "m" }
      (some "c") false) = [("c", [])] ∧
    callEvents (demoStdioClient
      { envAB with toolsRes := Except.ok [toolA, toolB] }
      (some "c") false) = [("c", [])] :=
  stdio_explicit_name_called envAB rfl "c" (by decide) "m" [toolA, toolB]
    (by decide)

/-- Claim C10: when the tool the stdio flow selected is found among the
    listed tools and carries no input schema, or a schema without a
    properties key, the call is still made and its argument mapping is
    exactly empty. -/
theorem stdio_no_schema_empty_args (env : StdioEnv)
    (h0 : env.initRes = Except.ok ()) (tn : Option String) (n : String)
    (hn : n ≠ "") (hsel : selectedToolName tn (toolsOf env.toolsRes) = some n)
    (t : Tool) (hfind : findTool n (toolsOf env.toolsRes) = some t)
    (hs : t.inputSchema = none ∨
      ∃ s, t.inputSchema = some s ∧ s.properties = none) :
    Ev.callTool n [] (env.callOk n []) ∈ demoStdioClient env tn false := by
  have hb : (n == "") = false := beq_eq_false_iff_ne.mpr hn
  cases htr : env.toolsRes with
  | error msg =>
    rw [htr] at hfind
    simp [findTool, toolsOf] at hfind
  | ok ts =>
    rw [htr] at hsel hfind
    cases ts with
    | nil => simp [findTool, toolsOf] at hfind
    | cons t0 rest =>
      simp only [toolsOf] at hsel hfind
      have hfd : (t0 :: rest).find? (fun u => u.name == n) = some t := by
        simpa [findTool] using hfind
      have hargs : toolArgsFor n (some (t0 :: rest)) = [] := by
        simp only [toolArgsFor, hfd]
        rcases hs with h | ⟨s, hs1, hs2⟩
        · rw [h]
        · rw [hs1]
          simp [hs2]
      simp [demoStdioClient, h0, stdioCallPhase, toolsOf, htr, hsel, hb,
        hargs]

/-- Witness for C10 on a schemaless listed tool selected by fallback. -/
theorem stdio_no_schema_empty_args_witness :
    Ev.callTool "x" [] true ∈ demoStdioClient envX none false :=
  stdio_no_schema_empty_args envX rfl none "x" (by decide) rfl toolX rfl
    (Or.inl rfl)
